import Mathlib

/-!
Verification of the CLI todo application (`app/models.py`, `app/database.py`,
`app/cli.py`): a shallow embedding of the SQLModel data model and of each CLI
command handler, together with theorems settling the specification claims.

Modelling conventions:
* A database state is four lists of rows (users, todos, categories,
  todo-category join rows) in insertion order, plus the auto-increment
  counters that SQLite maintains for the three integer primary keys.
* `select(...).first()` and `select(...).one_or_none()` both become
  `List.find?` over the rows in insertion order (for the `one_or_none`
  call sites the queried columns are primary keys or unique columns, so at
  most one committed row can match).
* Each handler returns a `Res`: the lines it printed, the database state as
  committed when the process ends, and `err = some e` when an exception
  escapes the handler uncaught (the process then dies with a traceback; the
  scoped session rolls back whatever was not yet committed).  Each CLI
  command is a separate process run, so a later command still starts from
  the committed state carried in `Res.db`.
* Storage/ORM behaviour embedded here, per SQLite and SQLAlchemy semantics:
  a commit that violates a UNIQUE or composite-PRIMARY-KEY constraint raises
  `IntegrityError`; deleting a `User` makes SQLAlchemy de-associate the rows
  of the loaded `User.todos` relationship by nulling their foreign key,
  which the NOT NULL `todo.user_id` column rejects with `IntegrityError`
  (there is no delete cascade configured); `Category` rows have no
  relationship attribute on `User`, so a user delete leaves them untouched
  (SQLite does not enforce foreign keys by default); accessing `todo.user`
  when the owning row is gone yields `None`, so `todo.user.username` raises
  `AttributeError`.
-/

/-- Row of the `user` table (`app/models.py`, class `User`).  `password`
holds whatever string the application stored — hashed or not is exactly
what the claims ask. -/
structure User where
  id : Nat
  username : String
  email : String
  password : String
deriving Repr, DecidableEq

/-- Row of the `todo` table (`app/models.py`, class `Todo`).  `user_id` is a
NOT NULL foreign key to `user.id`. -/
structure Todo where
  id : Nat
  user_id : Nat
  text : String
  done : Bool
deriving Repr, DecidableEq

/-- Row of the `category` table (`app/models.py`, class `Category`). -/
structure Category where
  id : Nat
  user_id : Nat
  text : String
deriving Repr, DecidableEq

/-- Row of the `todocategory` join table (`app/models.py`, class
`TodoCategory`); the two columns form a composite primary key. -/
structure TodoCategory where
  todo_id : Nat
  category_id : Nat
deriving Repr, DecidableEq

/-- The whole SQLite file: rows in insertion order plus the auto-increment
counters for the three surrogate primary keys. -/
structure DB where
  users : List User
  todos : List Todo
  categories : List Category
  todo_categories : List TodoCategory
  next_user_id : Nat
  next_todo_id : Nat
  next_category_id : Nat
deriving Repr, DecidableEq

/-- Modelled from the spec: `pwdlib`'s `PasswordHash.recommended().hash`
(an external library, absent from `src/`).  The spec says the password is
"hashed at write time" and "never stored in plaintext"; argon2id output
always starts with a `$argon2id$` tag, so the hash of a plaintext never
equals that plaintext.  We model the hash as that tagging, which is
injective and never the identity — the two properties the claims use. -/
def hash_password (password : String) : String :=
  "$argon2id$" ++ password

/-- `User.__init__` (`app/models.py` lines 22-25): stores username and email
and routes the password through `set_password`, which hashes it.  The `id`
is assigned by the database at commit. -/
def User.make (id : Nat) (username email password : String) : User :=
  { id := id, username := username, email := email,
    password := hash_password password }

/-- `User.__str__` (`app/models.py` line 31). -/
def User.toStr (u : User) : String :=
  s!"(User id={u.id}, username={u.username}, email={u.email})"

/-- Python's `str` of a `bool`. -/
def pyBool (b : Bool) : String :=
  if b then "True" else "False"

/-- `Todo.toggle` (`app/models.py` lines 47-48). -/
def Todo.toggle (t : Todo) : Todo :=
  { t with done := !t.done }

/-- An exception escaping a handler uncaught. -/
inductive PyError where
  | integrityError
  | attributeError
deriving Repr, DecidableEq

/-- Result of one CLI command run: printed lines, the database state as
committed when the process ends, and the uncaught exception if one
escaped. -/
structure Res where
  out : List String
  db : DB
  err : Option PyError
deriving Repr, DecidableEq

/-- The empty database file, before any table holds a row. -/
def emptyDB : DB :=
  { users := [], todos := [], categories := [], todo_categories := [],
    next_user_id := 1, next_todo_id := 1, next_category_id := 1 }

/-- `initialize` (`app/cli.py` lines 17-34): drops every table, recreates
them (auto-increment counters restart), and inserts the seed user bob. -/
def initDb (_db : DB) : Res :=
  let bob : User := User.make 1 "bob" "bob@mail.com" "bobpass"
  { out := ["Database Initialized"],
    db := { users := [bob], todos := [], categories := [],
            todo_categories := [], next_user_id := 2, next_todo_id := 1,
            next_category_id := 1 },
    err := none }

/-- `select(User).where(User.username == username)` with `first()` or
`one_or_none()`: first row in insertion order whose username matches
(username is a unique column, so at most one committed row matches). -/
def findUserByUsername (db : DB) (username : String) : Option User :=
  db.users.find? (fun u => u.username == username)

/-- `get_user` (`app/cli.py` lines 37-52). -/
def get_user (db : DB) (username : String) : Res :=
  match findUserByUsername db username with
  | none => { out := [s!"{username} not found!"], db := db, err := none }
  | some user => { out := [user.toStr], db := db, err := none }

/-- `get_all_users` (`app/cli.py` lines 55-72). -/
def get_all_users (db : DB) : Res :=
  if db.users.isEmpty then
    { out := ["No users found"], db := db, err := none }
  else
    { out := db.users.map User.toStr, db := db, err := none }

/-- `create_user` (`app/cli.py` lines 98-122): builds the user (password
hashed by `User.__init__`), commits; a UNIQUE violation on username or
email raises `IntegrityError`, which the handler catches, rolling back and
printing an error message (which always blames the username). -/
def create_user (db : DB) (username email password : String) : Res :=
  if db.users.any (fun u => u.username == username || u.email == email) then
    { out := [s!"Error: A user with the username \x27{username}\x27 already exists."],
      db := db, err := none }
  else
    let new_user := User.make db.next_user_id username email password
    { out := [new_user.toStr],
      db := { db with users := db.users ++ [new_user],
                      next_user_id := db.next_user_id + 1 },
      err := none }

/-- `change_email` (`app/cli.py` lines 75-95): no uniqueness pre-check and
no `try`, so committing an email already used by a different user lets the
UNIQUE-constraint `IntegrityError` escape uncaught (session rolls back on
exit, state unchanged). -/
def change_email (db : DB) (username new_email : String) : Res :=
  match findUserByUsername db username with
  | none =>
    { out := [s!"{username} not found! Unable to update email."],
      db := db, err := none }
  | some user =>
    if db.users.any (fun u => u.id != user.id && u.email == new_email) then
      { out := [], db := db, err := some .integrityError }
    else
      let msg := s!"Updated {user.username}\x27s email to {new_email}"
      let users2 := db.users.map
        (fun u => if u.id == user.id then { u with email := new_email } else u)
      { out := [msg], db := { db with users := users2 }, err := none }

/-- `delete_user` (`app/cli.py` lines 125-142): `db.delete(user)` then
commit.  The `User.todos` relationship has no delete cascade, so SQLAlchemy
de-associates the owned `Todo` rows by nulling `todo.user_id`; that column
is NOT NULL, so when the user owns any todo the flush raises
`IntegrityError` uncaught and the delete is rolled back.  `Category` rows
are not a relationship attribute of `User` and SQLite does not enforce
foreign keys here, so they are never touched (orphaned on success). -/
def delete_user (db : DB) (username : String) : Res :=
  match findUserByUsername db username with
  | none =>
    { out := [s!"{username} not found! Unable to delete user."],
      db := db, err := none }
  | some user =>
    if db.todos.any (fun t => t.user_id == user.id) then
      { out := [], db := db, err := some .integrityError }
    else
      { out := [s!"Deleted user {username}"],
        db := { db with users := db.users.filter (fun u => u.id != user.id) },
        err := none }

/-- Whether `pat` occurs as a contiguous run inside the character list:
true when some suffix starts with `pat`. -/
def charsContain (pat : List Char) : List Char → Bool
  | [] => pat.isEmpty
  | c :: rest => pat.isPrefixOf (c :: rest) || charsContain pat rest

/-- The filter `column.contains(pat)` of `get_partial_user` compiles to
`column LIKE '%pat%'`; SQLite's LIKE is case-insensitive over ASCII, hence
the lowering on both sides.  (LIKE wildcard characters inside the pattern
itself are not modelled; the claims use this command only through its
frame behaviour.) -/
def likeContains (s pat : String) : Bool :=
  charsContain pat.toLower.data s.toLower.data

/-- `get_partial_user` (`app/cli.py` lines 145-162): first user, in
insertion order, whose username contains the one substring OR whose email
contains the other; read-only. -/
def get_partial_user (db : DB) (partial_username partial_email : String) : Res :=
  match db.users.find?
      (fun u => likeContains u.username partial_username ||
        likeContains u.email partial_email) with
  | none =>
    { out := [s!"No user found with username containing \"{partial_username}\" or email containing \"{partial_email}\""],
      db := db, err := none }
  | some user => { out := [user.toStr], db := db, err := none }

/-- The row slice `select(User).limit(limit).offset(offset)` returns:
skip `offset` rows of the table in insertion order, then up to `limit`. -/
def paginated_users (db : DB) (limit offset : Nat) : List User :=
  (db.users.drop offset).take limit

/-- `get_paginated` (`app/cli.py` lines 167-185). -/
def get_paginated (db : DB) (limit offset : Nat) : Res :=
  let users := paginated_users db limit offset
  if users.isEmpty then
    { out := ["No users found with the given pagination parameters."],
      db := db, err := none }
  else
    { out := users.map User.toStr, db := db, err := none }

/-- `add_task` (`app/cli.py` lines 188-208): `user.todos.append(Todo(text=task))`
creates a `Todo` row whose `user_id` the relationship machinery fills in at
flush; `done` defaults to `False` and the id is the next auto-increment. -/
def add_task (db : DB) (username task : String) : Res :=
  match findUserByUsername db username with
  | none => { out := ["User doesn\x27t exist"], db := db, err := none }
  | some user =>
    let new_todo : Todo :=
      { id := db.next_todo_id, user_id := user.id, text := task, done := false }
    { out := ["Task added for user"],
      db := { db with todos := db.todos ++ [new_todo],
                      next_todo_id := db.next_todo_id + 1 },
      err := none }

/-- Committing the flipped row: the table with `Todo.toggle` applied to the
row carrying the given primary key. -/
def toggle_at (todo_id : Nat) (t : Todo) : Todo :=
  if t.id == todo_id then t.toggle else t

/-- `toggle_todo` (`app/cli.py` lines 212-237): looks the todo up by id,
prints a not-found message when absent; otherwise dereferences
`todo.user.username` — if the owning user row is gone (orphaned todo) the
relationship loads `None` and the attribute access raises `AttributeError`
uncaught; otherwise an ownership mismatch prints a message, and in the
success case `Todo.toggle` flips `done` on that row and commits. -/
def toggle_todo (db : DB) (todo_id : Nat) (username : String) : Res :=
  match db.todos.find? (fun t => t.id == todo_id) with
  | none => { out := ["This todo doesn\x27t exist"], db := db, err := none }
  | some todo =>
    match db.users.find? (fun u => u.id == todo.user_id) with
    | none => { out := [], db := db, err := some .attributeError }
    | some owner =>
      if owner.username != username then
        { out := [s!"This todo doesn\x27t belong to {username}"],
          db := db, err := none }
      else
        let d := pyBool (!todo.done)
        let todos2 := db.todos.map (toggle_at todo_id)
        { out := [s!"Todo item\x27s done state set to {d}"],
          db := { db with todos := todos2 }, err := none }

/-- The categories associated to a todo through the join table, in join-row
insertion order (`todo.categories`). -/
def todo_category_rows (db : DB) (todo_id : Nat) : List Category :=
  (db.todo_categories.filter (fun tc => tc.todo_id == todo_id)).filterMap
    (fun tc => db.categories.find? (fun c => c.id == tc.category_id))

/-- Python's repr of a `Category` row, as printed inside the list shown by
`list_todo_categories` (pydantic-style field list). -/
def Category.toStr (c : Category) : String :=
  s!"Category(id={c.id}, user_id={c.user_id}, text=\x27{c.text}\x27)"

/-- `list_todo_categories` (`app/cli.py` lines 242-261): same owner
dereference as `toggle_todo` (so an orphaned todo raises `AttributeError`),
then prints the associated category list. -/
def list_todo_categories (db : DB) (todo_id : Nat) (username : String) : Res :=
  match db.todos.find? (fun t => t.id == todo_id) with
  | none => { out := ["Todo doesn\x27t exist"], db := db, err := none }
  | some todo =>
    match db.users.find? (fun u => u.id == todo.user_id) with
    | none => { out := [], db := db, err := some .attributeError }
    | some owner =>
      if owner.username != username then
        { out := ["Todo doesn\x27t belong to that user"], db := db, err := none }
      else
        let cats := todo_category_rows db todo_id
        let listed := String.intercalate ", " (cats.map Category.toStr)
        { out := [s!"Categories: [{listed}]"], db := db, err := none }

/-- `create_category` (`app/cli.py` lines 264-291): checks for an existing
category with the same text for the same user before inserting, so the
insert never violates a constraint. -/
def create_category (db : DB) (username cat_text : String) : Res :=
  match findUserByUsername db username with
  | none => { out := ["User doesn\x27t exist"], db := db, err := none }
  | some user =>
    match db.categories.find?
        (fun c => c.text == cat_text && c.user_id == user.id) with
    | some _ =>
      { out := ["Category exists! Skipping creation"], db := db, err := none }
    | none =>
      let category : Category :=
        { id := db.next_category_id, user_id := user.id, text := cat_text }
      { out := ["Category added for user"],
        db := { db with categories := db.categories ++ [category],
                        next_category_id := db.next_category_id + 1 },
        err := none }

/-- The list comprehension `[category.text for category in categories]`
computed by `list_user_categories` for an existing user. -/
def user_category_texts (db : DB) (user_id : Nat) : List String :=
  (db.categories.filter (fun c => c.user_id == user_id)).map Category.text

/-- Python's repr of a list of strings. -/
def pyStrList (l : List String) : String :=
  let quoted := l.map (fun t => "\x27" ++ t ++ "\x27")
  "[" ++ String.intercalate ", " quoted ++ "]"

/-- `list_user_categories` (`app/cli.py` lines 294-311). -/
def list_user_categories (db : DB) (username : String) : Res :=
  match findUserByUsername db username with
  | none => { out := ["User doesn\x27t exist"], db := db, err := none }
  | some user =>
    { out := [pyStrList (user_category_texts db user.id)], db := db, err := none }

/-- Second half of `assign_category_to_todo` (`app/cli.py` lines 341-349),
entered with the category in hand and with `db1` the state as already
committed (a freshly created category is committed before the todo lookup).
`todo.categories.append(category)` inserts a join row; if that (todo_id,
category_id) pair is already present, the composite primary key rejects the
insert and the `IntegrityError` escapes uncaught (only the join-row insert
rolls back — the category commit already happened). -/
def assign_append (db1 : DB) (user : User) (category : Category)
    (todo_id : Nat) (out0 : List String) : Res :=
  match db1.todos.find? (fun t => t.id == todo_id && t.user_id == user.id) with
  | none =>
    { out := out0 ++ ["Todo doesn\x27t exist for user"], db := db1, err := none }
  | some todo =>
    if db1.todo_categories.any
        (fun tc => tc.todo_id == todo.id && tc.category_id == category.id) then
      { out := out0, db := db1, err := some .integrityError }
    else
      { out := out0 ++ ["Added category to todo"],
        db := { db1 with todo_categories :=
                  db1.todo_categories ++ [⟨todo.id, category.id⟩] },
        err := none }

/-- `assign_category_to_todo` (`app/cli.py` lines 314-349): looks the user
up, then looks the category up by (text, user) and — when absent — creates
AND COMMITS it before the todo is looked up; then appends the join row
(see `assign_append`). -/
def assign_category_to_todo (db : DB) (username : String) (todo_id : Nat)
    (category_text : String) : Res :=
  match findUserByUsername db username with
  | none => { out := ["User doesn\x27t exist"], db := db, err := none }
  | some user =>
    match db.categories.find?
        (fun c => c.text == category_text && c.user_id == user.id) with
    | some category => assign_append db user category todo_id []
    | none =>
      let category : Category :=
        { id := db.next_category_id, user_id := user.id, text := category_text }
      let db1 := { db with categories := db.categories ++ [category],
                           next_category_id := db.next_category_id + 1 }
      assign_append db1 user category todo_id
        ["Category didn\x27t exist for user, creating it"]

/-- The loop of `list_todos` (`app/cli.py` lines 362-365): prints one line
per todo, dereferencing `todo.user.username`; an orphaned todo kills the
process mid-loop with `AttributeError` (lines already printed stay). -/
def list_todos_lines (db : DB) : List Todo → List String × Option PyError
  | [] => ([], none)
  | t :: ts =>
    match db.users.find? (fun u => u.id == t.user_id) with
    | none => ([], some .attributeError)
    | some u =>
      let d := pyBool t.done
      let line := s!"ID: {t.id} | Text: {t.text} | User: {u.username} | Done: {d}"
      let rest := list_todos_lines db ts
      (line :: rest.1, rest.2)

/-- `list_todos` (`app/cli.py` lines 352-365). -/
def list_todos (db : DB) : Res :=
  let r := list_todos_lines db db.todos
  { out := r.1, db := db, err := r.2 }

/-- `delete_todo` (`app/cli.py` lines 368-385): deletes the row by id; the
`Todo.categories` relationship goes through the `TodoCategory` secondary
table, whose join rows SQLAlchemy deletes along with the todo. -/
def delete_todo (db : DB) (todo_id : Nat) : Res :=
  match db.todos.find? (fun t => t.id == todo_id) with
  | none =>
    { out := [s!"Todo with ID {todo_id} does not exist"], db := db, err := none }
  | some _ =>
    { out := [s!"Todo with ID {todo_id} deleted"],
      db := { db with
                todos := db.todos.filter (fun t => t.id != todo_id),
                todo_categories :=
                  db.todo_categories.filter (fun tc => tc.todo_id != todo_id) },
      err := none }

/-- The row update of `complete_all`: `done = True` on the rows owned by
the given user, others untouched. -/
def complete_at (user_id : Nat) (t : Todo) : Todo :=
  if t.user_id == user_id then { t with done := true } else t

/-- `complete_all` (`app/cli.py` lines 388-409): sets `done = True` on every
todo in `user.todos` and commits once. -/
def complete_all (db : DB) (username : String) : Res :=
  match findUserByUsername db username with
  | none =>
    { out := [s!"User {username} does not exist"], db := db, err := none }
  | some user =>
    let todos2 := db.todos.map (complete_at user.id)
    { out := [s!"All todos for {username} marked as complete"],
      db := { db with todos := todos2 }, err := none }

/-- One CLI invocation: the subcommand and its arguments. -/
inductive Cmd where
  | initDb
  | getUser (username : String)
  | getAllUsers
  | changeEmail (username new_email : String)
  | createUser (username email password : String)
  | deleteUser (username : String)
  | getPartialUser (partial_username partial_email : String)
  | getPaginated (limit offset : Nat)
  | addTask (username task : String)
  | toggleTodo (todo_id : Nat) (username : String)
  | listTodoCategories (todo_id : Nat) (username : String)
  | createCategory (username cat_text : String)
  | listUserCategories (username : String)
  | assignCategoryToTodo (username : String) (todo_id : Nat) (category_text : String)
  | listTodos
  | deleteTodo (todo_id : Nat)
  | completeAll (username : String)
deriving Repr, DecidableEq

/-- Dispatch of `app/cli.py`: run one command against the current file. -/
def runCmd (db : DB) : Cmd → Res
  | .initDb => initDb db
  | .getUser username => get_user db username
  | .getAllUsers => get_all_users db
  | .changeEmail username new_email => change_email db username new_email
  | .createUser username email password => create_user db username email password
  | .deleteUser username => delete_user db username
  | .getPartialUser partial_username partial_email =>
      get_partial_user db partial_username partial_email
  | .getPaginated limit offset => get_paginated db limit offset
  | .addTask username task => add_task db username task
  | .toggleTodo todo_id username => toggle_todo db todo_id username
  | .listTodoCategories todo_id username => list_todo_categories db todo_id username
  | .createCategory username cat_text => create_category db username cat_text
  | .listUserCategories username => list_user_categories db username
  | .assignCategoryToTodo username todo_id category_text =>
      assign_category_to_todo db username todo_id category_text
  | .listTodos => list_todos db
  | .deleteTodo todo_id => delete_todo db todo_id
  | .completeAll username => complete_all db username

/-- A sequence of CLI invocations: each command is its own process, so the
next one starts from whatever the previous run left committed (even when
that run died with a traceback). -/
def runList (cmds : List Cmd) (db : DB) : DB :=
  cmds.foldl (fun d c => (runCmd d c).db) db

/-- A committed database state, as the schema constraints guarantee it:
primary keys and the unique columns of `user` hold no duplicates, and every
join row refers to an already-allocated category id. -/
def WF (db : DB) : Prop :=
  (db.users.map User.id).Nodup ∧
  (db.users.map User.username).Nodup ∧
  (db.users.map User.email).Nodup ∧
  (db.todos.map Todo.id).Nodup ∧
  (∀ tc ∈ db.todo_categories, tc.category_id < db.next_category_id)

instance (db : DB) : Decidable (WF db) := by
  unfold WF; infer_instance

/-- `find?` under a duplicate-free key column: a predicate that pins the key
of a member row finds exactly that row. -/
theorem find?_eq_some_of_key {α β : Type} [BEq β] [LawfulBEq β] (key : α → β)
    (p : α → Bool) (l : List α) (hnd : (l.map key).Nodup) (a : α) (ha : a ∈ l)
    (hpa : p a = true) (hp : ∀ x, p x = true → key x = key a) :
    l.find? p = some a := by
  induction l with
  | nil => cases ha
  | cons b t ih =>
    simp only [List.map_cons, List.nodup_cons] at hnd
    by_cases hb : p b = true
    · have hab : a = b := by
        rcases List.mem_cons.mp ha with h | h
        · exact h
        · exact absurd ((hp b hb) ▸ List.mem_map_of_mem key h) hnd.1
      rw [List.find?_cons_of_pos _ hb, hab]
    · have hat : a ∈ t := by
        rcases List.mem_cons.mp ha with h | h
        · exact absurd (h ▸ hpa) hb
        · exact h
      rw [List.find?_cons_of_neg _ (by simpa using hb)]
      exact ih hnd.2 hat

/-- Looking a member user up by its username succeeds, given the unique
username column. -/
theorem findUserByUsername_eq (db : DB)
    (hnd : (db.users.map User.username).Nodup) (u : User) (hu : u ∈ db.users) :
    findUserByUsername db u.username = some u := by
  apply find?_eq_some_of_key User.username _ _ hnd u hu (by simp)
  intro x hx
  exact eq_of_beq hx

/-- Looking a member user up by its id succeeds, given the primary key. -/
theorem find_user_by_id_eq (db : DB) (hnd : (db.users.map User.id).Nodup)
    (u : User) (hu : u ∈ db.users) :
    db.users.find? (fun x => x.id == u.id) = some u := by
  apply find?_eq_some_of_key User.id _ _ hnd u hu (by simp)
  intro x hx
  exact eq_of_beq hx

/-- Looking a member todo up by its id succeeds, given the primary key. -/
theorem find_todo_by_id_eq (db : DB) (hnd : (db.todos.map Todo.id).Nodup)
    (t : Todo) (ht : t ∈ db.todos) :
    db.todos.find? (fun x => x.id == t.id) = some t := by
  apply find?_eq_some_of_key Todo.id _ _ hnd t ht (by simp)
  intro x hx
  exact eq_of_beq hx

/-- Sample state: the file after `initialize` (seed user bob, id 1). -/
def dbBob : DB := runList [Cmd.initDb] emptyDB

/-- Sample state: bob plus one of his todos (id 1, not done). -/
def dbBobTodo : DB := runList [Cmd.initDb, Cmd.addTask "bob" "laundry"] emptyDB

/-- Sample state: bob plus one of his categories (id 1), no todos. -/
def dbBobCat : DB :=
  runList [Cmd.initDb, Cmd.createCategory "bob" "chores"] emptyDB

/-- Sample state: bob and a second user alice. -/
def dbTwoUsers : DB :=
  runList [Cmd.initDb, Cmd.createUser "alice" "alice@mail.com" "alicepass"] emptyDB

/-- Sample state: four users (bob and three more). -/
def dbFour : DB :=
  runList [Cmd.initDb, Cmd.createUser "ann" "ann@mail.com" "p1",
    Cmd.createUser "cid" "cid@mail.com" "p2",
    Cmd.createUser "dee" "dee@mail.com" "p3"] emptyDB

/-- C1: if some user already holds the requested username or email,
`create_user` reports an error (rolling the insert back), the database is
returned exactly as it was, and in particular the pre-existing user row is
still present unchanged. -/
theorem create_user_duplicate_fails (db : DB) (username email password : String)
    (u : User) (hu : u ∈ db.users)
    (hdup : u.username = username ∨ u.email = email) :
    create_user db username email password =
      { out := [s!"Error: A user with the username \x27{username}\x27 already exists."],
        db := db, err := none } ∧
    u ∈ (create_user db username email password).db.users := by
  have hany : db.users.any
      (fun x => x.username == username || x.email == email) = true := by
    apply List.any_eq_true.mpr
    refine ⟨u, hu, ?_⟩
    rcases hdup with h | h <;> simp [h]
  refine ⟨by simp [create_user, hany], ?_⟩
  simpa [create_user, hany] using hu

/-- C1 witness: on the seeded file, creating a second `bob` fails and
leaves the seed row in place. -/
theorem create_user_duplicate_fails_witness :
    User.make 1 "bob" "bob@mail.com" "bobpass" ∈ dbBob.users ∧
    (create_user dbBob "bob" "x@mail.com" "pw" =
      { out := [s!"Error: A user with the username \x27bob\x27 already exists."],
        db := dbBob, err := none } ∧
     User.make 1 "bob" "bob@mail.com" "bobpass" ∈
       (create_user dbBob "bob" "x@mail.com" "pw").db.users) :=
  ⟨by decide,
   create_user_duplicate_fails dbBob "bob" "x@mail.com" "pw"
     (User.make 1 "bob" "bob@mail.com" "bobpass") (by decide) (Or.inl rfl)⟩

/-- C10: with an existing user, a category text new to that user and no todo
with the given id owned by that user, `assign_category_to_todo` fails with
the not-found message but has already committed the new category: the
failed run leaves the database changed. -/
theorem assign_notfound_commits_category (db : DB) (hwf : WF db)
    (u : User) (hu : u ∈ db.users) (todo_id : Nat) (category_text : String)
    (hfresh : ∀ c ∈ db.categories, c.user_id = u.id → c.text ≠ category_text)
    (hnotodo : ∀ t ∈ db.todos, t.id = todo_id → t.user_id ≠ u.id) :
    (assign_category_to_todo db u.username todo_id category_text).err = none ∧
    (assign_category_to_todo db u.username todo_id category_text).out =
      ["Category didn\x27t exist for user, creating it",
       "Todo doesn\x27t exist for user"] ∧
    (assign_category_to_todo db u.username todo_id category_text).db.categories =
      db.categories ++
        [{ id := db.next_category_id, user_id := u.id, text := category_text }] ∧
    (assign_category_to_todo db u.username todo_id category_text).db.users =
      db.users ∧
    (assign_category_to_todo db u.username todo_id category_text).db.todos =
      db.todos ∧
    (assign_category_to_todo db u.username todo_id category_text).db.todo_categories =
      db.todo_categories ∧
    (assign_category_to_todo db u.username todo_id category_text).db ≠ db := by
  obtain ⟨_, huname, _, _, _⟩ := hwf
  have hfu : findUserByUsername db u.username = some u :=
    findUserByUsername_eq db huname u hu
  have hfc : db.categories.find?
      (fun c => c.text == category_text && c.user_id == u.id) = none := by
    apply List.find?_eq_none.mpr
    intro c hc hpc
    simp only [Bool.and_eq_true, beq_iff_eq] at hpc
    exact hfresh c hc hpc.2 hpc.1
  have hft : db.todos.find?
      (fun t => t.id == todo_id && t.user_id == u.id) = none := by
    apply List.find?_eq_none.mpr
    intro t htm hpt
    simp only [Bool.and_eq_true, beq_iff_eq] at hpt
    exact hnotodo t htm hpt.1 hpt.2
  have hne : (assign_category_to_todo db u.username todo_id category_text).db ≠ db := by
    intro he
    have hc := congrArg (fun d => d.categories.length) he
    simp [assign_category_to_todo, hfu, hfc, assign_append, hft] at hc
  refine ⟨?_, ?_, ?_, ?_, ?_, ?_, hne⟩ <;>
    simp [assign_category_to_todo, hfu, hfc, assign_append, hft]

/-- C10 witness: on the seeded file, assigning category `chores` to the
absent todo 7 for bob fails but persists the category. -/
theorem assign_notfound_commits_category_witness :
    WF dbBob ∧
    User.make 1 "bob" "bob@mail.com" "bobpass" ∈ dbBob.users ∧
    (∀ c ∈ dbBob.categories, c.user_id = 1 → c.text ≠ "chores") ∧
    (∀ t ∈ dbBob.todos, t.id = 7 → t.user_id ≠ 1) ∧
    ((assign_category_to_todo dbBob "bob" 7 "chores").err = none ∧
     (assign_category_to_todo dbBob "bob" 7 "chores").out =
       ["Category didn\x27t exist for user, creating it",
        "Todo doesn\x27t exist for user"] ∧
     (assign_category_to_todo dbBob "bob" 7 "chores").db.categories =
       dbBob.categories ++ [{ id := dbBob.next_category_id, user_id := 1, text := "chores" }] ∧
     (assign_category_to_todo dbBob "bob" 7 "chores").db.users = dbBob.users ∧
     (assign_category_to_todo dbBob "bob" 7 "chores").db.todos = dbBob.todos ∧
     (assign_category_to_todo dbBob "bob" 7 "chores").db.todo_categories =
       dbBob.todo_categories ∧
     (assign_category_to_todo dbBob "bob" 7 "chores").db ≠ dbBob) :=
  ⟨by decide, by decide, by decide, by decide,
   assign_notfound_commits_category dbBob (by decide)
     (User.make 1 "bob" "bob@mail.com" "bobpass") (by decide) 7 "chores"
     (by decide) (by decide)⟩

/-- Flipping a done flag twice restores the row. -/
theorem toggle_toggle (t : Todo) : t.toggle.toggle = t := by
  cases t
  simp [Todo.toggle]

/-- `toggle_at` never changes the primary key of a row. -/
theorem toggle_at_id (todo_id : Nat) (t : Todo) :
    (toggle_at todo_id t).id = t.id := by
  by_cases h : (t.id == todo_id) = true <;> simp [toggle_at, h, Todo.toggle]

/-- The flip `toggle_todo` applies to the row with the given id preserves
every id, so mapping it over the table twice is the identity. -/
theorem toggle_map_twice (todos : List Todo) (todo_id : Nat) :
    (todos.map (toggle_at todo_id)).map (toggle_at todo_id) = todos := by
  rw [List.map_map]
  have hcomp : (toggle_at todo_id ∘ toggle_at todo_id) = id := by
    funext x
    by_cases h : (x.id == todo_id) = true
    · have h2 : (x.toggle.id == todo_id) = true := by simpa [Todo.toggle] using h
      simp only [Function.comp_apply, toggle_at, h, h2, if_true, toggle_toggle, id_eq]
    · simp [toggle_at, h]
  rw [hcomp, List.map_id]

/-- C2: toggling the same todo twice, as its owner, restores the whole
database state (the done flag returns to its original value and nothing
else changes). -/
theorem toggle_todo_involution (db : DB) (hwf : WF db) (t : Todo)
    (ht : t ∈ db.todos) (u : User) (hu : u ∈ db.users)
    (hid : u.id = t.user_id) (username : String) (hname : u.username = username) :
    (toggle_todo (toggle_todo db t.id username).db t.id username).db = db := by
  obtain ⟨huid, _, _, htid, _⟩ := hwf
  have hft : db.todos.find? (fun x => x.id == t.id) = some t :=
    find_todo_by_id_eq db htid t ht
  have hfu : db.users.find? (fun x => x.id == t.user_id) = some u := by
    apply find?_eq_some_of_key User.id _ _ huid u hu (by simp [hid])
    intro x hx
    rw [eq_of_beq hx, hid]
  have step1 : (toggle_todo db t.id username).db =
      { db with todos := db.todos.map (toggle_at t.id) } := by
    simp [toggle_todo, hft, hfu, hname]
  rw [step1]
  have hnd2 : ((db.todos.map (toggle_at t.id)).map Todo.id).Nodup := by
    simpa [List.map_map, Function.comp_def, toggle_at_id] using htid
  have hmem2 : t.toggle ∈ db.todos.map (toggle_at t.id) :=
    List.mem_map.mpr ⟨t, ht, by simp [toggle_at]⟩
  have hft2 : (db.todos.map (toggle_at t.id)).find?
      (fun x => x.id == t.id) = some t.toggle := by
    apply find?_eq_some_of_key Todo.id _ _ hnd2 t.toggle hmem2 (by simp [Todo.toggle])
    intro x hx
    simpa [Todo.toggle] using eq_of_beq hx
  have hfu2 : db.users.find? (fun x => x.id == t.toggle.user_id) = some u := by
    simpa [Todo.toggle] using hfu
  have hcomp2 : List.map (toggle_at t.id ∘ toggle_at t.id) db.todos = db.todos := by
    rw [← List.map_map]
    exact toggle_map_twice db.todos t.id
  simp [toggle_todo, hft2, hfu2, hname, toggle_map_twice, hcomp2]

/-- Marking a user's rows done is idempotent row by row. -/
theorem complete_at_comp (user_id : Nat) :
    complete_at user_id ∘ complete_at user_id = complete_at user_id := by
  funext x
  by_cases h : (x.user_id == user_id) = true
  · simp only [Function.comp_apply, complete_at, h, if_true]
  · simp [complete_at, h]

/-- C3: `complete_all` marks done every todo owned by the named user, and a
second run on the resulting state changes nothing. -/
theorem complete_all_idempotent (db : DB) (hwf : WF db) (u : User)
    (hu : u ∈ db.users) :
    (∀ t ∈ (complete_all db u.username).db.todos, t.user_id = u.id → t.done = true) ∧
    (complete_all (complete_all db u.username).db u.username).db =
      (complete_all db u.username).db := by
  obtain ⟨_, huname, _, _, _⟩ := hwf
  have hfu : findUserByUsername db u.username = some u :=
    findUserByUsername_eq db huname u hu
  have step1 : (complete_all db u.username).db =
      { db with todos := db.todos.map (complete_at u.id) } := by
    simp [complete_all, hfu]
  constructor
  · rw [step1]
    intro t htm hto
    obtain ⟨t0, ht0, rfl⟩ := List.mem_map.mp htm
    by_cases h : (t0.user_id == u.id) = true
    · simp [complete_at, h]
    · exact absurd (by simpa [complete_at, h] using hto) (by simpa using h)
  · rw [step1]
    have hidem : (db.todos.map (complete_at u.id)).map (complete_at u.id) =
        db.todos.map (complete_at u.id) := by
      rw [List.map_map, complete_at_comp]
    have hidem2 : List.map (complete_at u.id ∘ complete_at u.id) db.todos =
        db.todos.map (complete_at u.id) := by
      rw [complete_at_comp]
    have hfu2 : db.users.find? (fun x => x.username == u.username) = some u := hfu
    simp [complete_all, findUserByUsername, hfu2, hidem, hidem2]

/-- C3 witness: `complete-all bob` on the sample state, twice. -/
theorem complete_all_idempotent_witness :
    WF dbBobTodo ∧
    User.make 1 "bob" "bob@mail.com" "bobpass" ∈ dbBobTodo.users ∧
    ((∀ t ∈ (complete_all dbBobTodo "bob").db.todos, t.user_id = 1 → t.done = true) ∧
     (complete_all (complete_all dbBobTodo "bob").db "bob").db =
       (complete_all dbBobTodo "bob").db) :=
  ⟨by decide, by decide,
   complete_all_idempotent dbBobTodo (by decide)
     (User.make 1 "bob" "bob@mail.com" "bobpass") (by decide)⟩

/-- C4: `toggle_todo` reports not-found when no todo has the id, reports an
ownership mismatch when the owner's username differs (database untouched in
both failure cases), and otherwise flips exactly the done flag of that todo
(all other rows and tables unchanged). -/
theorem toggle_todo_cases (db : DB) (hwf : WF db) (todo_id : Nat)
    (username : String) :
    ((∀ t ∈ db.todos, t.id ≠ todo_id) →
      toggle_todo db todo_id username =
        { out := ["This todo doesn\x27t exist"], db := db, err := none }) ∧
    (∀ t ∈ db.todos, t.id = todo_id → ∀ u ∈ db.users, u.id = t.user_id →
      u.username ≠ username →
      toggle_todo db todo_id username =
        { out := [s!"This todo doesn\x27t belong to {username}"],
          db := db, err := none }) ∧
    (∀ t ∈ db.todos, t.id = todo_id → ∀ u ∈ db.users, u.id = t.user_id →
      u.username = username →
      ((toggle_todo db todo_id username).err = none ∧
       (toggle_todo db todo_id username).db.users = db.users ∧
       (toggle_todo db todo_id username).db.categories = db.categories ∧
       (toggle_todo db todo_id username).db.todo_categories = db.todo_categories ∧
       t.toggle ∈ (toggle_todo db todo_id username).db.todos ∧
       (∀ x ∈ db.todos, x.id ≠ todo_id →
          x ∈ (toggle_todo db todo_id username).db.todos) ∧
       (∀ x ∈ (toggle_todo db todo_id username).db.todos, x.id ≠ todo_id →
          x ∈ db.todos))) := by
  obtain ⟨huid, _, _, htid, _⟩ := hwf
  refine ⟨?_, ?_, ?_⟩
  · intro h
    have hnone : db.todos.find? (fun t => t.id == todo_id) = none :=
      List.find?_eq_none.mpr (fun t ht => by simpa using h t ht)
    simp [toggle_todo, hnone]
  · intro t ht hteq u hu hueq hne
    subst hteq
    have hft : db.todos.find? (fun x => x.id == t.id) = some t :=
      find_todo_by_id_eq db htid t ht
    have hfu : db.users.find? (fun x => x.id == t.user_id) = some u := by
      apply find?_eq_some_of_key User.id _ _ huid u hu (by simp [hueq])
      intro x hx
      rw [eq_of_beq hx, hueq]
    simp [toggle_todo, hft, hfu, hne]
  · intro t ht hteq u hu hueq hname
    subst hteq
    have hft : db.todos.find? (fun x => x.id == t.id) = some t :=
      find_todo_by_id_eq db htid t ht
    have hfu : db.users.find? (fun x => x.id == t.user_id) = some u := by
      apply find?_eq_some_of_key User.id _ _ huid u hu (by simp [hueq])
      intro x hx
      rw [eq_of_beq hx, hueq]
    have hdb : (toggle_todo db t.id username).db =
        { db with todos := db.todos.map (toggle_at t.id) } := by
      simp [toggle_todo, hft, hfu, hname]
    have herr : (toggle_todo db t.id username).err = none := by
      simp [toggle_todo, hft, hfu, hname]
    refine ⟨herr, by rw [hdb], by rw [hdb], by rw [hdb], ?_, ?_, ?_⟩
    · rw [hdb]
      exact List.mem_map.mpr ⟨t, ht, by simp [toggle_at]⟩
    · intro x hx hxne
      rw [hdb]
      refine List.mem_map.mpr ⟨x, hx, ?_⟩
      simp [toggle_at, hxne]
    · intro x hx hxne
      rw [hdb] at hx
      obtain ⟨x0, hx0, rfl⟩ := List.mem_map.mp hx
      by_cases h : (x0.id == t.id) = true
      · exact absurd (by simpa [toggle_at, h, Todo.toggle] using hxne)
          (by simp [eq_of_beq h])
      · simpa [toggle_at, h] using hx0

/-- C4 witness: the success case on bob's todo 1 of the sample state. -/
theorem toggle_todo_cases_witness :
    WF dbBobTodo ∧
    (toggle_todo dbBobTodo 1 "bob").err = none ∧
    Todo.toggle ⟨1, 1, "laundry", false⟩ ∈ (toggle_todo dbBobTodo 1 "bob").db.todos ∧
    (toggle_todo dbBobTodo 1 "bob").db.users = dbBobTodo.users := by
  have h := (toggle_todo_cases dbBobTodo (by decide) 1 "bob").2.2
    ⟨1, 1, "laundry", false⟩ (by decide) rfl
    (User.make 1 "bob" "bob@mail.com" "bobpass") (by decide) rfl rfl
  exact ⟨by decide, h.1, h.2.2.2.2.1, h.2.1⟩

/-- C5: with an existing user and one of this user's todos, assigning a
category text that the user does not yet have creates the category and
associates it with the todo in the same call, and `list_user_categories`
on the resulting state prints the user's category texts, which include the
new one; and when no todo with the given id belongs to the user, the
command reports not-found (terminating normally). -/
theorem assign_category_creates_and_associates (db : DB) (hwf : WF db)
    (u : User) (hu : u ∈ db.users) :
    (∀ t ∈ db.todos, t.user_id = u.id → ∀ category_text : String,
      (∀ c ∈ db.categories, c.user_id = u.id → c.text ≠ category_text) →
      ((assign_category_to_todo db u.username t.id category_text).err = none ∧
       (∃ c, c ∈ (assign_category_to_todo db u.username t.id category_text).db.categories ∧
          c.user_id = u.id ∧ c.text = category_text ∧
          (⟨t.id, c.id⟩ : TodoCategory) ∈
            (assign_category_to_todo db u.username t.id category_text).db.todo_categories) ∧
       category_text ∈
         user_category_texts (assign_category_to_todo db u.username t.id category_text).db u.id ∧
       (list_user_categories (assign_category_to_todo db u.username t.id category_text).db u.username).out =
         [pyStrList (user_category_texts (assign_category_to_todo db u.username t.id category_text).db u.id)])) ∧
    (∀ (todo_id : Nat) (category_text : String),
      (∀ t ∈ db.todos, t.id = todo_id → t.user_id ≠ u.id) →
      ((assign_category_to_todo db u.username todo_id category_text).err = none ∧
       "Todo doesn\x27t exist for user" ∈
         (assign_category_to_todo db u.username todo_id category_text).out)) := by
  obtain ⟨huid, huname, hemail, htid, htc⟩ := hwf
  have hfu : findUserByUsername db u.username = some u :=
    findUserByUsername_eq db huname u hu
  constructor
  · intro t ht hown category_text hfresh
    have hfc : db.categories.find?
        (fun c => c.text == category_text && c.user_id == u.id) = none := by
      apply List.find?_eq_none.mpr
      intro c hc hpc
      simp only [Bool.and_eq_true, beq_iff_eq] at hpc
      exact hfresh c hc hpc.2 hpc.1
    have hft : db.todos.find?
        (fun x => x.id == t.id && x.user_id == u.id) = some t := by
      apply find?_eq_some_of_key Todo.id _ _ htid t ht (by simp [hown])
      intro x hx
      simp only [Bool.and_eq_true, beq_iff_eq] at hx
      exact hx.1
    have hany : db.todo_categories.any
        (fun tc => tc.todo_id == t.id && tc.category_id == db.next_category_id) = false := by
      apply List.any_eq_false.mpr
      intro tc htcm hp
      simp only [Bool.and_eq_true, beq_iff_eq] at hp
      exact absurd hp.2 (Nat.ne_of_lt (htc tc htcm))
    have hres : assign_category_to_todo db u.username t.id category_text =
        { out := ["Category didn\x27t exist for user, creating it",
                  "Added category to todo"],
          db := { db with
                    categories := db.categories ++
                      [{ id := db.next_category_id, user_id := u.id, text := category_text }],
                    todo_categories := db.todo_categories ++
                      [⟨t.id, db.next_category_id⟩],
                    next_category_id := db.next_category_id + 1 },
          err := none } := by
      simp [assign_category_to_todo, hfu, hfc, assign_append, hft, hany]
    rw [hres]
    refine ⟨rfl, ?_, ?_, ?_⟩
    · refine ⟨{ id := db.next_category_id, user_id := u.id, text := category_text }, ?_, rfl, rfl, ?_⟩
      · simp
      · simp
    · apply List.mem_map.mpr
      refine ⟨{ id := db.next_category_id, user_id := u.id, text := category_text }, ?_, rfl⟩
      apply List.mem_filter.mpr
      exact ⟨by simp, by simp⟩
    · have hfu2 : (db.users.find? (fun x => x.username == u.username)) = some u := hfu
      simp [list_user_categories, findUserByUsername, hfu2]
  · intro todo_id category_text hno
    have hft0 : db.todos.find?
        (fun x => x.id == todo_id && x.user_id == u.id) = none := by
      apply List.find?_eq_none.mpr
      intro x hx hpx
      simp only [Bool.and_eq_true, beq_iff_eq] at hpx
      exact hno x hx hpx.1 hpx.2
    cases hc : db.categories.find?
        (fun c => c.text == category_text && c.user_id == u.id) with
    | none => simp [assign_category_to_todo, hfu, hc, assign_append, hft0]
    | some c0 => simp [assign_category_to_todo, hfu, hc, assign_append, hft0]

/-- C5 witness: assigning the fresh category `chores` to bob's todo 1. -/
theorem assign_category_creates_and_associates_witness :
    WF dbBobTodo ∧
    (⟨1, 1, "laundry", false⟩ : Todo) ∈ dbBobTodo.todos ∧
    (∀ c ∈ dbBobTodo.categories, c.user_id = 1 → c.text ≠ "chores") ∧
    ((assign_category_to_todo dbBobTodo "bob" 1 "chores").err = none ∧
     "chores" ∈ user_category_texts (assign_category_to_todo dbBobTodo "bob" 1 "chores").db 1) := by
  have h := (assign_category_creates_and_associates dbBobTodo (by decide)
    (User.make 1 "bob" "bob@mail.com" "bobpass") (by decide)).1
    ⟨1, 1, "laundry", false⟩ (by decide) rfl "chores" (by decide)
  exact ⟨by decide, by decide, by decide, h.1, h.2.2.1⟩

/-- C6: on a file with exactly 4 users (rows returned in their fixed
insertion order), the two pages `limit=2, offset=0` and `limit=2, offset=2`
are pairs that do not share a user and together are exactly the 4 users;
`get_paginated` prints exactly those pages. -/
theorem get_paginated_partition (db : DB) (hwf : WF db)
    (hlen : db.users.length = 4) :
    (get_paginated db 2 0).out = (paginated_users db 2 0).map User.toStr ∧
    (get_paginated db 2 2).out = (paginated_users db 2 2).map User.toStr ∧
    (paginated_users db 2 0).length = 2 ∧
    (paginated_users db 2 2).length = 2 ∧
    paginated_users db 2 0 ++ paginated_users db 2 2 = db.users ∧
    (∀ x ∈ paginated_users db 2 0, x ∉ paginated_users db 2 2) := by
  obtain ⟨huid, _, _, _, _⟩ := hwf
  have h1 : paginated_users db 2 0 = db.users.take 2 := by
    simp [paginated_users]
  have hdlen : (db.users.drop 2).length = 2 := by
    simp [List.length_drop, hlen]
  have h2 : paginated_users db 2 2 = db.users.drop 2 := by
    simp only [paginated_users]
    exact List.take_of_length_le (le_of_eq hdlen)
  have hlen1 : (paginated_users db 2 0).length = 2 := by
    rw [h1, List.length_take, hlen]
    rfl
  have hlen2 : (paginated_users db 2 2).length = 2 := by
    rw [h2, hdlen]
  have happend : paginated_users db 2 0 ++ paginated_users db 2 2 = db.users := by
    rw [h1, h2, List.take_append_drop]
  have hnodup : db.users.Nodup := List.Nodup.of_map _ huid
  have hdisj : ∀ x ∈ paginated_users db 2 0, x ∉ paginated_users db 2 2 := by
    rw [← happend] at hnodup
    have := (List.nodup_append.mp hnodup).2.2
    intro x hx
    exact this hx
  have hne1 : (paginated_users db 2 0).isEmpty = false := by
    cases hpe : paginated_users db 2 0 with
    | nil => rw [hpe] at hlen1; cases hlen1
    | cons a l => rfl
  have hne2 : (paginated_users db 2 2).isEmpty = false := by
    cases hpe : paginated_users db 2 2 with
    | nil => rw [hpe] at hlen2; cases hlen2
    | cons a l => rfl
  refine ⟨?_, ?_, hlen1, hlen2, happend, hdisj⟩
  · simp [get_paginated, hne1]
  · simp [get_paginated, hne2]

/-- C6 witness: the four-user sample state. -/
theorem get_paginated_partition_witness :
    WF dbFour ∧ dbFour.users.length = 4 ∧
    (paginated_users dbFour 2 0 ++ paginated_users dbFour 2 2 = dbFour.users ∧
     ∀ x ∈ paginated_users dbFour 2 0, x ∉ paginated_users dbFour 2 2) := by
  have h := get_paginated_partition dbFour (by decide) (by decide)
  exact ⟨by decide, by decide, h.2.2.2.2.1, h.2.2.2.2.2⟩

/-- C7 (amended): when the named user owns no todos, `delete_user` removes
exactly that user's row and leaves every `Todo` and `Category` row (and the
join table) untouched — `Category` rows owned by the user are orphaned; but
when the user owns at least one todo, the delete dies with an unhandled
`IntegrityError` (the ORM tries to null the NOT NULL `todo.user_id`) and
the database is unchanged, the user's row included. -/
theorem delete_user_cases (db : DB) (hwf : WF db) (u : User)
    (hu : u ∈ db.users) :
    ((∀ t ∈ db.todos, t.user_id ≠ u.id) →
      ((delete_user db u.username).err = none ∧
       u ∉ (delete_user db u.username).db.users ∧
       (∀ x ∈ db.users, x.id ≠ u.id → x ∈ (delete_user db u.username).db.users) ∧
       (∀ x ∈ (delete_user db u.username).db.users, x ∈ db.users ∧ x.id ≠ u.id) ∧
       (delete_user db u.username).db.todos = db.todos ∧
       (delete_user db u.username).db.categories = db.categories ∧
       (delete_user db u.username).db.todo_categories = db.todo_categories)) ∧
    ((∃ t ∈ db.todos, t.user_id = u.id) →
      ((delete_user db u.username).err = some PyError.integrityError ∧
       (delete_user db u.username).db = db)) := by
  obtain ⟨_, huname, _, _, _⟩ := hwf
  have hfu : findUserByUsername db u.username = some u :=
    findUserByUsername_eq db huname u hu
  constructor
  · intro hnone
    have hany : db.todos.any (fun t => t.user_id == u.id) = false := by
      apply List.any_eq_false.mpr
      intro t ht hp
      exact hnone t ht (eq_of_beq hp)
    have hdb : (delete_user db u.username).db =
        { db with users := db.users.filter (fun x => x.id != u.id) } := by
      simp [delete_user, hfu, hany]
    have herr : (delete_user db u.username).err = none := by
      simp [delete_user, hfu, hany]
    refine ⟨herr, ?_, ?_, ?_, by rw [hdb], by rw [hdb], by rw [hdb]⟩
    · rw [hdb]
      intro hmem
      have := (List.mem_filter.mp hmem).2
      simp at this
    · intro x hx hxne
      rw [hdb]
      exact List.mem_filter.mpr ⟨hx, by simpa using hxne⟩
    · intro x hx
      rw [hdb] at hx
      have h := List.mem_filter.mp hx
      exact ⟨h.1, by simpa using h.2⟩
  · rintro ⟨t, ht, hown⟩
    have hany : db.todos.any (fun t => t.user_id == u.id) = true :=
      List.any_eq_true.mpr ⟨t, ht, by simp [hown]⟩
    constructor <;> simp [delete_user, hfu, hany]

/-- C7 witness (amended success case): deleting bob when he owns only a
category removes his row and leaves the category orphaned in place. -/
theorem delete_user_cases_witness :
    WF dbBobCat ∧
    User.make 1 "bob" "bob@mail.com" "bobpass" ∈ dbBobCat.users ∧
    (∀ t ∈ dbBobCat.todos, t.user_id ≠ 1) ∧
    ((delete_user dbBobCat "bob").err = none ∧
     (delete_user dbBobCat "bob").db.categories = dbBobCat.categories) := by
  have h := (delete_user_cases dbBobCat (by decide)
    (User.make 1 "bob" "bob@mail.com" "bobpass") (by decide)).1 (by decide)
  exact ⟨by decide, by decide, by decide, h.1, h.2.2.2.2.2.1⟩

/-- C7 counterexample to the claim as stated: on the sample state where bob
owns todo 1, `delete_user bob` does NOT remove the user row and orphan the
todo — it escapes with `IntegrityError` and leaves the database unchanged,
bob's row included. -/
theorem delete_user_orphan_counterexample :
    (∃ t ∈ dbBobTodo.todos, t.user_id = 1) ∧
    (delete_user dbBobTodo "bob").err = some PyError.integrityError ∧
    (delete_user dbBobTodo "bob").db = dbBobTodo ∧
    User.make 1 "bob" "bob@mail.com" "bobpass" ∈ (delete_user dbBobTodo "bob").db.users := by
  decide

/-- Every password stored in the user table is the hash of some plaintext:
no handler ever writes an unhashed password. -/
def PwHashed (db : DB) : Prop :=
  ∀ u ∈ db.users, ∃ p, u.password = hash_password p

/-- `get_user` never changes the database. -/
theorem get_user_db (db : DB) (username : String) :
    (get_user db username).db = db := by
  unfold get_user
  split <;> rfl

/-- `get_all_users` never changes the database. -/
theorem get_all_users_db (db : DB) : (get_all_users db).db = db := by
  unfold get_all_users
  split <;> rfl

/-- `get_partial_user` never changes the database. -/
theorem get_partial_user_db (db : DB) (partial_username partial_email : String) :
    (get_partial_user db partial_username partial_email).db = db := by
  unfold get_partial_user
  split <;> rfl

/-- `get_paginated` never changes the database. -/
theorem get_paginated_db (db : DB) (limit offset : Nat) :
    (get_paginated db limit offset).db = db := by
  by_cases hp : (paginated_users db limit offset).isEmpty = true <;>
    simp [get_paginated, hp]

/-- `list_todo_categories` never changes the database. -/
theorem list_todo_categories_db (db : DB) (todo_id : Nat) (username : String) :
    (list_todo_categories db todo_id username).db = db := by
  unfold list_todo_categories
  split
  · rfl
  · split
    · rfl
    · split <;> rfl

/-- `list_user_categories` never changes the database. -/
theorem list_user_categories_db (db : DB) (username : String) :
    (list_user_categories db username).db = db := by
  unfold list_user_categories
  split <;> rfl

/-- `list_todos` never changes the database. -/
theorem list_todos_db (db : DB) : (list_todos db).db = db := rfl

/-- `add_task` never touches the user table. -/
theorem add_task_users (db : DB) (username task : String) :
    (add_task db username task).db.users = db.users := by
  unfold add_task
  split <;> rfl

/-- `toggle_todo` never touches the user table. -/
theorem toggle_todo_users (db : DB) (todo_id : Nat) (username : String) :
    (toggle_todo db todo_id username).db.users = db.users := by
  unfold toggle_todo
  split
  · rfl
  · split
    · rfl
    · split <;> rfl

/-- `create_category` never touches the user table. -/
theorem create_category_users (db : DB) (username cat_text : String) :
    (create_category db username cat_text).db.users = db.users := by
  unfold create_category
  split
  · rfl
  · split <;> rfl

/-- `assign_append` never touches the user table. -/
theorem assign_append_users (db1 : DB) (user : User) (category : Category)
    (todo_id : Nat) (out0 : List String) :
    (assign_append db1 user category todo_id out0).db.users = db1.users := by
  unfold assign_append
  split
  · rfl
  · split <;> rfl

/-- `assign_category_to_todo` never touches the user table. -/
theorem assign_users (db : DB) (username : String) (todo_id : Nat)
    (category_text : String) :
    (assign_category_to_todo db username todo_id category_text).db.users = db.users := by
  unfold assign_category_to_todo
  split
  · rfl
  · split
    · rw [assign_append_users]
    · rw [assign_append_users]

/-- `delete_todo` never touches the user table. -/
theorem delete_todo_users (db : DB) (todo_id : Nat) :
    (delete_todo db todo_id).db.users = db.users := by
  unfold delete_todo
  split <;> rfl

/-- `complete_all` never touches the user table. -/
theorem complete_all_users (db : DB) (username : String) :
    (complete_all db username).db.users = db.users := by
  unfold complete_all
  split <;> rfl

/-- One command preserves the password invariant: the only writes to the
password column go through `User.__init__`, which hashes. -/
theorem pwHashed_runCmd (db : DB) (c : Cmd) (h : PwHashed db) :
    PwHashed (runCmd db c).db := by
  cases c with
  | initDb =>
    intro u hu
    simp [runCmd, initDb] at hu
    exact ⟨"bobpass", by simp [hu, User.make]⟩
  | getUser username =>
    intro u hu
    rw [runCmd, get_user_db] at hu
    exact h u hu
  | getAllUsers =>
    intro u hu
    rw [runCmd, get_all_users_db] at hu
    exact h u hu
  | changeEmail username new_email =>
    cases hf : findUserByUsername db username with
    | none =>
      intro u hu
      simp only [runCmd, change_email, hf] at hu
      exact h u hu
    | some user =>
      by_cases ha : db.users.any
          (fun x => x.id != user.id && x.email == new_email) = true
      · intro u hu
        simp only [runCmd, change_email, hf, ha, if_true] at hu
        exact h u hu
      · intro u hu
        simp only [runCmd, change_email, hf, Bool.not_eq_true] at hu
        rw [if_neg (by simpa using ha)] at hu
        obtain ⟨x, hx, rfl⟩ := List.mem_map.mp hu
        obtain ⟨p, hp⟩ := h x hx
        by_cases hxe : (x.id == user.id) = true
        · exact ⟨p, by simp [hxe, hp]⟩
        · exact ⟨p, by simp [hxe, hp]⟩
  | createUser username email password =>
    by_cases hd : db.users.any
        (fun x => x.username == username || x.email == email) = true
    · intro u hu
      simp only [runCmd, create_user, hd, if_true] at hu
      exact h u hu
    · intro u hu
      simp only [runCmd, create_user, Bool.not_eq_true] at hu
      rw [if_neg (by simpa using hd)] at hu
      rcases List.mem_append.mp hu with hu | hu
      · exact h u hu
      · have : u = User.make db.next_user_id username email password := by
          simpa using hu
        exact ⟨password, by simp [this, User.make]⟩
  | deleteUser username =>
    cases hf : findUserByUsername db username with
    | none =>
      intro u hu
      simp only [runCmd, delete_user, hf] at hu
      exact h u hu
    | some user =>
      by_cases ha : db.todos.any (fun t => t.user_id == user.id) = true
      · intro u hu
        simp only [runCmd, delete_user, hf, ha, if_true] at hu
        exact h u hu
      · intro u hu
        simp only [runCmd, delete_user, hf, Bool.not_eq_true] at hu
        rw [if_neg (by simpa using ha)] at hu
        exact h u (List.mem_filter.mp hu).1
  | getPartialUser partial_username partial_email =>
    intro u hu
    rw [runCmd, get_partial_user_db] at hu
    exact h u hu
  | getPaginated limit offset =>
    intro u hu
    rw [runCmd, get_paginated_db] at hu
    exact h u hu
  | addTask username task =>
    intro u hu
    rw [runCmd, add_task_users] at hu
    exact h u hu
  | toggleTodo todo_id username =>
    intro u hu
    rw [runCmd, toggle_todo_users] at hu
    exact h u hu
  | listTodoCategories todo_id username =>
    intro u hu
    rw [runCmd, list_todo_categories_db] at hu
    exact h u hu
  | createCategory username cat_text =>
    intro u hu
    rw [runCmd, create_category_users] at hu
    exact h u hu
  | listUserCategories username =>
    intro u hu
    rw [runCmd, list_user_categories_db] at hu
    exact h u hu
  | assignCategoryToTodo username todo_id category_text =>
    intro u hu
    rw [runCmd, assign_users] at hu
    exact h u hu
  | listTodos =>
    intro u hu
    rw [runCmd, list_todos_db] at hu
    exact h u hu
  | deleteTodo todo_id =>
    intro u hu
    rw [runCmd, delete_todo_users] at hu
    exact h u hu
  | completeAll username =>
    intro u hu
    rw [runCmd, complete_all_users] at hu
    exact h u hu

/-- A whole command sequence preserves the password invariant. -/
theorem pwHashed_runList (cmds : List Cmd) (db : DB) (h : PwHashed db) :
    PwHashed (runList cmds db) := by
  induction cmds generalizing db with
  | nil => exact h
  | cons c cs ih => exact ih (runCmd db c).db (pwHashed_runCmd db c h)

/-- C8: in every state reachable from the empty file by any command
sequence, every user's password field is the hash computed at write time
and never equals the plaintext it was computed from. -/
theorem passwords_never_plaintext (cmds : List Cmd) :
    ∀ u ∈ (runList cmds emptyDB).users,
      ∃ p, u.password = hash_password p ∧ u.password ≠ p := by
  have hbase : PwHashed emptyDB := by
    intro u hu
    cases hu
  have h := pwHashed_runList cmds emptyDB hbase
  intro u hu
  obtain ⟨p, hp⟩ := h u hu
  refine ⟨p, hp, ?_⟩
  rw [hp]
  intro he
  have hlen := congrArg String.length he
  rw [hash_password, String.length_append] at hlen
  have h10 : ("$argon2id$" : String).length = 10 := rfl
  rw [h10] at hlen
  omega

/-- C8 witness: the state after creating alice holds only a hashed
password, distinct from the plaintext. -/
theorem passwords_never_plaintext_witness :
    User.make 1 "alice" "alice@mail.com" "hunter2" ∈
      (runList [Cmd.createUser "alice" "alice@mail.com" "hunter2"] emptyDB).users ∧
    ∃ p, (User.make 1 "alice" "alice@mail.com" "hunter2").password = hash_password p ∧
      (User.make 1 "alice" "alice@mail.com" "hunter2").password ≠ p :=
  ⟨by decide,
   passwords_never_plaintext [Cmd.createUser "alice" "alice@mail.com" "hunter2"]
     (User.make 1 "alice" "alice@mail.com" "hunter2") (by decide)⟩

/-- The six commands that have a path relying on the storage engine or the
ORM instead of an explicit pre-check (no `try`/`except` around the commit
or the relationship dereference). -/
def unguarded : Cmd → Bool
  | .changeEmail _ _ => true
  | .deleteUser _ => true
  | .toggleTodo _ _ => true
  | .listTodoCategories _ _ => true
  | .listTodos => true
  | .assignCategoryToTodo _ _ _ => true
  | _ => false

/-- C9 counterexample to the claim as stated: with bob and alice present,
`change_email alice bob@mail.com` hits the unique-email constraint with no
handler around the commit, so the run escapes with an unhandled error
rather than printing a message and terminating normally. -/
theorem unhandled_error_counterexample :
    ¬ (∀ (db : DB) (c : Cmd), (runCmd db c).err = none) :=
  fun h =>
    absurd (h dbTwoUsers (Cmd.changeEmail "alice" "bob@mail.com")) (by decide)

/-- C9 (amended): every command outside the six `unguarded` ones prints at
least one human-readable line and terminates normally on every input (in
particular `create_user` always catches its constraint violation); and
`change_email` either prints its message and terminates normally or —
when the new email is already in use by another user — escapes with an
unhandled `IntegrityError`, printing nothing, the database unchanged. -/
theorem handled_paths_terminate_normally :
    (∀ (db : DB) (c : Cmd), unguarded c = false →
      ((runCmd db c).err = none ∧ (runCmd db c).out ≠ [])) ∧
    (∀ (db : DB) (username new_email : String),
      ((change_email db username new_email).err = none ∧
       (change_email db username new_email).out ≠ []) ∨
      ((change_email db username new_email).err = some PyError.integrityError ∧
       (change_email db username new_email).db = db ∧
       (change_email db username new_email).out = [])) := by
  constructor
  · intro db c hc
    cases c with
    | initDb => exact ⟨rfl, by simp [runCmd, initDb]⟩
    | getUser username =>
      show (get_user db username).err = none ∧ (get_user db username).out ≠ []
      unfold get_user
      split <;> exact ⟨rfl, by simp⟩
    | getAllUsers =>
      show (get_all_users db).err = none ∧ (get_all_users db).out ≠ []
      by_cases h : db.users.isEmpty = true
      · refine ⟨by simp [get_all_users, h], by simp [get_all_users, h]⟩
      · have hne : db.users ≠ [] := by
          intro he
          rw [he] at h
          exact h rfl
        refine ⟨by simp [get_all_users, h], ?_⟩
        simp only [get_all_users, h, Bool.false_eq_true, if_false]
        simpa using hne
    | createUser username email password =>
      show (create_user db username email password).err = none ∧
        (create_user db username email password).out ≠ []
      unfold create_user
      split <;> exact ⟨rfl, by simp⟩
    | getPartialUser partial_username partial_email =>
      show (get_partial_user db partial_username partial_email).err = none ∧
        (get_partial_user db partial_username partial_email).out ≠ []
      unfold get_partial_user
      split <;> exact ⟨rfl, by simp⟩
    | getPaginated limit offset =>
      show (get_paginated db limit offset).err = none ∧
        (get_paginated db limit offset).out ≠ []
      by_cases hp : (paginated_users db limit offset).isEmpty = true
      · refine ⟨by simp [get_paginated, hp], by simp [get_paginated, hp]⟩
      · have hne : paginated_users db limit offset ≠ [] := by
          intro he
          rw [he] at hp
          exact hp rfl
        refine ⟨by simp [get_paginated, hp], ?_⟩
        simp only [get_paginated, hp, Bool.false_eq_true, if_false]
        simpa using hne
    | addTask username task =>
      show (add_task db username task).err = none ∧ (add_task db username task).out ≠ []
      unfold add_task
      split <;> exact ⟨rfl, by simp⟩
    | createCategory username cat_text =>
      show (create_category db username cat_text).err = none ∧
        (create_category db username cat_text).out ≠ []
      unfold create_category
      split
      · exact ⟨rfl, by simp⟩
      · split <;> exact ⟨rfl, by simp⟩
    | listUserCategories username =>
      show (list_user_categories db username).err = none ∧
        (list_user_categories db username).out ≠ []
      unfold list_user_categories
      split <;> exact ⟨rfl, by simp⟩
    | deleteTodo todo_id =>
      show (delete_todo db todo_id).err = none ∧ (delete_todo db todo_id).out ≠ []
      unfold delete_todo
      split <;> exact ⟨rfl, by simp⟩
    | completeAll username =>
      show (complete_all db username).err = none ∧ (complete_all db username).out ≠ []
      unfold complete_all
      split <;> exact ⟨rfl, by simp⟩
    | changeEmail username new_email => exact Bool.noConfusion hc
    | deleteUser username => exact Bool.noConfusion hc
    | toggleTodo todo_id username => exact Bool.noConfusion hc
    | listTodoCategories todo_id username => exact Bool.noConfusion hc
    | listTodos => exact Bool.noConfusion hc
    | assignCategoryToTodo username todo_id category_text => exact Bool.noConfusion hc
  · intro db username new_email
    cases hf : findUserByUsername db username with
    | none =>
      left
      refine ⟨by simp [change_email, hf], by simp [change_email, hf]⟩
    | some user =>
      by_cases ha : db.users.any
          (fun x => x.id != user.id && x.email == new_email) = true
      · right
        refine ⟨?_, ?_, ?_⟩ <;> simp [change_email, hf, ha]
      · left
        constructor
        · simp only [change_email, hf, Bool.not_eq_true] at ha ⊢
          rw [if_neg (by simpa using ha)]
        · simp only [change_email, hf, Bool.not_eq_true] at ha ⊢
          rw [if_neg (by simpa using ha)]
          simp

/-- C9 witness: a guarded command printing its message and terminating
normally, and the `change_email` alternative at a fresh email. -/
theorem handled_paths_terminate_normally_witness :
    unguarded (Cmd.createUser "eve" "eve@mail.com" "pw") = false ∧
    ((runCmd dbBob (Cmd.createUser "eve" "eve@mail.com" "pw")).err = none ∧
     (runCmd dbBob (Cmd.createUser "eve" "eve@mail.com" "pw")).out ≠ []) ∧
    (((change_email dbBob "bob" "new@mail.com").err = none ∧
      (change_email dbBob "bob" "new@mail.com").out ≠ []) ∨
     ((change_email dbBob "bob" "new@mail.com").err = some PyError.integrityError ∧
      (change_email dbBob "bob" "new@mail.com").db = dbBob ∧
      (change_email dbBob "bob" "new@mail.com").out = [])) :=
  ⟨by decide,
   handled_paths_terminate_normally.1 dbBob
     (Cmd.createUser "eve" "eve@mail.com" "pw") (by decide),
   handled_paths_terminate_normally.2 dbBob "bob" "new@mail.com"⟩

/-- C2 witness: double toggle of bob's todo 1 restores the sample state. -/
theorem toggle_todo_involution_witness :
    WF dbBobTodo ∧
    (⟨1, 1, "laundry", false⟩ : Todo) ∈ dbBobTodo.todos ∧
    User.make 1 "bob" "bob@mail.com" "bobpass" ∈ dbBobTodo.users ∧
    (toggle_todo (toggle_todo dbBobTodo 1 "bob").db 1 "bob").db = dbBobTodo :=
  ⟨by decide, by decide, by decide,
   toggle_todo_involution dbBobTodo (by decide) ⟨1, 1, "laundry", false⟩
     (by decide) (User.make 1 "bob" "bob@mail.com" "bobpass") (by decide)
     rfl "bob" rfl⟩
